import Mathlib

/-!
Verification of the typed query/condition engine ("dorm"/"rorm"):
a shallow embedding of the field-metadata linter, condition AST,
query builder, SQL delete builder, row decoders and the `MaxStr`
bounded-string type, together with theorems settling the spec's claims.

Conventions:
- Rust `Result<T, E>` becomes `Except E T`; panics become an explicit
  outcome constructor or `Except` error where the claim needs them.
- `u64`/`usize` become `Nat`; claims never exercise wrap-around, and any
  theorem touching subtraction carries the `start <= end` side condition
  under which Rust's and `Nat`'s subtraction agree.
- Floats are carried as raw bit patterns (`Nat`), matching the spec's
  "bit-for-bit" language; no float arithmetic is modelled.
-/

namespace DormVerify

/-- The wire `Value` union (rorm-sql's `value::Value`, not under `src/`).
Modelled from the spec: "tagged union over Null(typed-null-tag), Bool,
Int16/32/64, Float32/64, String, Binary, Identifier, Date, Time, DateTime";
date/time payloads are abstracted to ordinals and float payloads to their
bit patterns. -/
inductive DbValue where
  | null
  | bool (b : Bool)
  | i16 (i : Int)
  | i32 (i : Int)
  | i64 (i : Int)
  | f32 (bits : Nat)
  | f64 (bits : Nat)
  | string (s : String)
  | binary (bytes : List Nat)
  | ident (name : String)
  | naiveDate (d : Nat)
  | naiveTime (t : Nat)
  | naiveDateTime (dt : Nat)
deriving DecidableEq, Repr

/-! ## Annotation linter (`Field::check_annotations`, src/rorm/src/model.rs) -/

/-- The linter's "footprint": one flag per annotation slot in the fixed order
`[AutoCreateTime, AutoUpdateTime, AutoIncrement, Choices, DefaultValue,
Index, MaxLength, PrimaryKey, Unique]` plus the trailing not-null flag
`footprint[N] = !T::IS_NULLABLE` (src/rorm/src/model.rs lines 273-282).
An entry is `true` iff the annotation is present in the merged set. -/
structure Footprint where
  ct : Bool
  ut : Bool
  ai : Bool
  ch : Bool
  de : Bool
  ix : Bool
  ml : Bool
  pk : Bool
  un : Bool
  nn : Bool
deriving DecidableEq, Repr

/-- `Field::check_annotations` (src/rorm/src/model.rs lines 273-326): the
ordered pattern match over the footprint; `some msg` models the
`panic!(msg)` taken when a rule fires, `none` is acceptance. -/
def check_annotations (f : Footprint) : Option String :=
  if f.ct && f.ai then some "AutoCreateTime and AutoIncrement are mutually exclusive"
  else if f.ct && f.ch then some "AutoCreateTime and Choices are mutually exclusive"
  else if f.ct && f.de then some "AutoCreateTime and Default are mutually exclusive"
  else if f.ct && f.ml then some "AutoCreateTime and MaxLength are mutually exclusive"
  else if f.ct && f.pk then some "AutoCreateTime and PrimaryKey are mutually exclusive"
  else if f.ct && f.un then some "AutoCreateTime and Unique are mutually exclusive"
  else if f.ut && f.ai then some "AutoUpdateTime and AutoIncrement are mutually exclusive"
  else if f.ut && f.ch then some "AutoUpdateTime and Choices are mutually exclusive"
  else if f.ut && f.de then some "AutoUpdateTime and Default are mutually exclusive"
  else if f.ut && f.ml then some "AutoUpdateTime and MaxLength are mutually exclusive"
  else if f.ut && f.pk then some "AutoUpdateTime and PrimaryKey are mutually exclusive"
  else if f.ut && f.un then some "AutoUpdateTime and Unique are mutually exclusive"
  else if f.ai && f.ch then some "AutoIncrement and Choices are mutually exclusive"
  else if f.ai && f.de then some "AutoIncrement and Default are mutually exclusive"
  else if f.ai && f.ml then some "AutoIncrement and MaxLength are mutually exclusive"
  else if f.ch && f.ml then some "MaxLength and Choices are mutually exclusive"
  else if f.ch && f.pk then some "Choices and PrimaryKey are mutually exclusive"
  else if f.ch && f.un then some "Choices and Unique are mutually exclusive"
  else if f.de && f.pk then some "Default and PrimaryKey are mutually exclusive"
  else if f.de && f.un then some "Default and Unique are mutually exclusive"
  else if f.ix && f.pk then some "Index and PrimaryKey are mutually exclusive"
  else if f.pk && !f.nn then some "PrimaryKey mustn't be nullable"
  else if !f.ct && f.ut && !f.de && f.nn then some "AutoUpdateTime must be a) nullable (i.e. Option<_>) or b) Default or c) AutoCreateTime"
  else if f.ai && !f.pk then some "AutoIncrement has to be set on a key"
  else if f.ch && !f.de then some "Choices requires a Default"
  else none

/-- The rule set the spec lists in section 3: auto_create_time/auto_update_time
each mutually exclusive with auto_increment, choices, default, max_length,
primary_key, unique; primary_key implies not-null; auto_increment requires
a primary or unique key; choices requires a default; max_length mutually
exclusive with choices. -/
def specRejects (f : Footprint) : Bool :=
  (f.ct && (f.ai || f.ch || f.de || f.ml || f.pk || f.un)) ||
  (f.ut && (f.ai || f.ch || f.de || f.ml || f.pk || f.un)) ||
  (f.pk && !f.nn) ||
  (f.ai && !(f.pk || f.un)) ||
  (f.ch && !f.de) ||
  (f.ml && f.ch)

/-- The rule set the code actually enforces, written as an unordered set of
rules (to be proved equivalent to the ordered match in `check_annotations`). -/
def codeRejects (f : Footprint) : Bool :=
  (f.ct && (f.ai || f.ch || f.de || f.ml || f.pk || f.un)) ||
  (f.ut && (f.ai || f.ch || f.de || f.ml || f.pk || f.un)) ||
  (f.ai && (f.ch || f.de || f.ml)) ||
  (f.ch && (f.ml || f.pk || f.un)) ||
  (f.de && (f.pk || f.un)) ||
  (f.ix && f.pk) ||
  (f.pk && !f.nn) ||
  (!f.ct && f.ut && !f.de && f.nn) ||
  (f.ai && !f.pk) ||
  (f.ch && !f.de)

/-! ## Condition AST (rorm-sql's `conditional` module, shape per spec section 3) -/

/-- Binary comparison operators of the condition AST (usage visible in
src/rorm/src/conditions.rs and src/src/fields/traits/cmp.rs). -/
inductive BinaryOperator where
  | equals
  | notEquals
  | greater
  | greaterOrEquals
  | less
  | lessOrEquals
  | like
  | notLike
  | regexpOp
  | notRegexpOp
deriving DecidableEq, Repr

/-- Unary operators of the condition AST. -/
inductive UnaryOperator where
  | isNull
  | isNotNull
deriving DecidableEq, Repr

/-- Ternary operators of the condition AST. -/
inductive TernaryOperator where
  | between
  | notBetween
deriving DecidableEq, Repr

/-- The dialect-independent condition tree (rorm-sql's
`conditional::Condition`, not under `src/`). Modelled from the spec:
"a recursive tree: Value leaf | Conjunction(list) | Disjunction(list) |
Unary(op, Condition) | Binary(op, Condition, Condition) |
Ternary(op, Condition, Condition, Condition)"; its constructors match the
uses in src/rorm/src/model.rs and src/rorm/src/conditions.rs. -/
inductive Condition where
  | value (v : DbValue)
  | conjunction (l : List Condition)
  | disjunction (l : List Condition)
  | unaryCondition (op : UnaryOperator) (arg : Condition)
  | binaryCondition (op : BinaryOperator) (fst snd : Condition)
  | ternaryCondition (op : TernaryOperator) (fst snd trd : Condition)

/-- Resolve a condition operand to the wire value it compares:
an `Identifier` leaf reads the row's column, any other value leaf is itself. -/
def resolveOperand (env : String → DbValue) : Condition → Option DbValue
  | .value (.ident name) => some (env name)
  | .value v => some v
  | _ => none

/-- Modelled from the spec: truth of a condition tree on a single row
(`env` maps column names to the row's values). The spec fixes the parts the
claims need: "an empty Conjunction renders as an always-true predicate; an
empty Disjunction renders as always-false", conjunction/disjunction are
AND/OR, and binary Equals/NotEquals compare their operands' values.
Operator shapes a claim never exercises evaluate to `false`. -/
def Condition.eval (env : String → DbValue) : Condition → Bool
  | .value (.bool b) => b
  | .value _ => false
  | .conjunction l => l.attach.all (fun c => c.1.eval env)
  | .disjunction l => l.attach.any (fun c => c.1.eval env)
  | .unaryCondition _ _ => false
  | .binaryCondition .equals a b =>
    match resolveOperand env a, resolveOperand env b with
    | some x, some y => x = y
    | _, _ => false
  | .binaryCondition .notEquals a b =>
    match resolveOperand env a, resolveOperand env b with
    | some x, some y => !(x = y)
    | _, _ => false
  | .binaryCondition _ _ _ => false
  | .ternaryCondition _ _ _ _ => false
decreasing_by
  all_goals
    simp_wf
    have h := List.sizeOf_lt_of_mem c.2
    omega

/-! ## The typed condition layer (src/src/conditions.rs is not under `src/`;
the structs below are reconstructed from their uses in
src/src/internal/field/access.rs and src/src/fields/traits/cmp.rs) -/

/-- `conditions::Binary`: a binary comparison between a column reference and
a right-hand side (here always a wire value). A field access is represented
by the column name it resolves to. -/
structure Binary where
  operator : BinaryOperator
  fst_arg : String
  snd_arg : DbValue
deriving DecidableEq, Repr

/-- `conditions::InOperator` (src/src/internal/field/access.rs). -/
inductive InOperator where
  | inOp
  | notIn
deriving DecidableEq, Repr

/-- `conditions::In`: the condition built by `FieldAccess::in`/`not_in`;
`fst_arg` is the column reference, `snd_arg` the list of values. -/
structure InCond where
  operator : InOperator
  fst_arg : String
  snd_arg : List DbValue
deriving DecidableEq, Repr

/-- `FieldEq::field_equals` as produced by `impl_FieldEq!`
(src/src/fields/traits/cmp.rs lines 117-124): a `Binary` with operator
`Equals`, the column as first and the converted value as second argument. -/
def field_equals {α : Type} (column : String) (into_value : α → DbValue) (value : α) : Binary :=
  { operator := .equals, fst_arg := column, snd_arg := into_value value }

/-- `FieldAccess::in` (src/src/internal/field/access.rs lines 94-110):
collects `self.equals(rhs).snd_arg` for each element and wraps them in an
`In` condition with operator `In` over the column reference. -/
def FieldAccess.inList {α : Type} (column : String) (into_value : α → DbValue) (rhs : List α) : InCond :=
  { operator := .inOp
    fst_arg := column
    snd_arg := rhs.map (fun r => (field_equals column into_value r).snd_arg) }

/-- `FieldAccess::not_in` (src/src/internal/field/access.rs lines 113-129):
same as `in` but with operator `NotIn`. -/
def FieldAccess.notIn {α : Type} (column : String) (into_value : α → DbValue) (rhs : List α) : InCond :=
  { operator := .notIn
    fst_arg := column
    snd_arg := rhs.map (fun r => (field_equals column into_value r).snd_arg) }

/-- Modelled from the spec: the `Condition` impl of `conditions::In`
(src/src/conditions.rs, not under `src/`): "`in_list`/`not_in` expand to a
Disjunction/Conjunction of per-value Binary conditions plus column
reference". `In` expands to a disjunction of per-value `Equals` and `NotIn`
to a conjunction of per-value `NotEquals`, the column reference being the
`Identifier` first argument of every binary condition. -/
def InCond.expand (c : InCond) : Condition :=
  match c.operator with
  | .inOp =>
    .disjunction (c.snd_arg.map (fun v =>
      .binaryCondition .equals (.value (.ident c.fst_arg)) (.value v)))
  | .notIn =>
    .conjunction (c.snd_arg.map (fun v =>
      .binaryCondition .notEquals (.value (.ident c.fst_arg)) (.value v)))

/-! ## Rows and decoders (src/src/crud/decoder.rs; rorm-db's `row` module is
not under `src/` and is modelled from the spec) -/

/-- Errors of a row access (`RowError` of rorm-db, not under `src/`).
Modelled from the spec: "RowDecodeError (column_or_index, cause) when a
stored value cannot be converted to the expected type". -/
inductive RowError where
  | columnNotFound (column : String)
  | indexOutOfBounds (i : Nat)
  | decode (cause : String)
deriving DecidableEq, Repr

/-- The abstract row (rorm-db's `Row`, not under `src/`). Modelled from the
spec: "an abstract row capability exposing get(column_name) -> Value and
get(index) -> Value": an ordered list of named column values. -/
structure Row where
  entries : List (String × DbValue)
deriving DecidableEq, Repr

/-- Modelled from the spec: `Row::get` by column name returns the first
column carrying that name. -/
def Row.getByName (row : Row) (name : String) : Except RowError DbValue :=
  match row.entries.find? (fun e => e.fst = name) with
  | some e => .ok e.snd
  | none => .error (.columnNotFound name)

/-- Modelled from the spec: `Row::get` by positional index. -/
def Row.getByIndex (row : Row) (i : Nat) : Except RowError DbValue :=
  match row.entries.get? i with
  | some e => .ok e.snd
  | none => .error (.indexOutOfBounds i)

/-- The primitive `String: DecodeOwned` conversion used by the string-typed
decoders (provided by the external driver, not under `src/`): a `String`
wire value decodes to itself, anything else is a decode error. -/
def decodeStringPrim : DbValue → Except RowError String
  | .string s => .ok s
  | _ => .error (.decode "type mismatch")

/-- `DirectDecoder` (src/src/crud/decoder.rs lines 33-51): remembers the
selected column's alias and positional index. The `T: DecodeOwned`
conversion is passed explicitly as `prim` to its two methods. -/
structure DirectDecoder where
  column : String
  index : Nat
deriving DecidableEq, Repr

/-- `DirectDecoder::by_name`: `row.get(self.column.as_str())` followed by the
primitive conversion. -/
def DirectDecoder.by_name {α : Type} (dec : DirectDecoder)
    (prim : DbValue → Except RowError α) (row : Row) : Except RowError α :=
  match row.getByName dec.column with
  | .ok v => prim v
  | .error e => .error e

/-- `DirectDecoder::by_index`: `row.get(self.index)` followed by the
primitive conversion. -/
def DirectDecoder.by_index {α : Type} (dec : DirectDecoder)
    (prim : DbValue → Except RowError α) (row : Row) : Except RowError α :=
  match row.getByIndex dec.index with
  | .ok v => prim v
  | .error e => .error e

/-! ## `MaxStr` (src/src/fields/types/max_str.rs) -/

/-- `MaxStr<MAX_LEN>`: a string whose length (as measured by the field's
`LenImpl`, passed explicitly as a function where the Rust code stores it)
may not exceed `MAX_LEN`. -/
structure MaxStr (MAX_LEN : Nat) where
  string : String
deriving DecidableEq, Repr

/-- `MaxLenError` (src/src/fields/types/max_str.rs lines 108-116). -/
structure MaxLenError where
  string : String
  max : Nat
  got : Nat
deriving DecidableEq, Repr

/-- `MaxStr::with_impl` (src/src/fields/types/max_str.rs lines 77-88):
wraps the string, returning `Err` iff its measured length exceeds
`MAX_LEN`. -/
def MaxStr.with_impl (MAX_LEN : Nat) (lenImpl : String → Nat) (string : String) :
    Except MaxLenError (MaxStr MAX_LEN) :=
  let got := lenImpl string
  if got > MAX_LEN then
    .error { string := string, max := MAX_LEN, got := got }
  else
    .ok { string := string }

/-- `MaxStr::new` (lines 69-74): `with_impl` with the `Impl`'s default
length measure. -/
def MaxStr.new (MAX_LEN : Nat) (lenImpl : String → Nat) (string : String) :
    Except MaxLenError (MaxStr MAX_LEN) :=
  MaxStr.with_impl MAX_LEN lenImpl string

/-- `MaxStr`'s `Default` impl (lines 47-61): wraps `Str::default()` (the
empty string) and panics if that is too long; the panic is modelled as
`none`. -/
def MaxStr.defaultImpl (MAX_LEN : Nat) (lenImpl : String → Nat) : Option (MaxStr MAX_LEN) :=
  match MaxStr.new MAX_LEN lenImpl "" with
  | .ok m => some m
  | .error _ => none

/-- `MaxStr`'s `Deserialize` impl (lines 140-156): deserializes the inner
string and passes it through `new`, mapping the error. -/
def MaxStr.deserialize (MAX_LEN : Nat) (lenImpl : String → Nat) (string : String) :
    Except String (MaxStr MAX_LEN) :=
  match MaxStr.new MAX_LEN lenImpl string with
  | .ok m => .ok m
  | .error e => .error ("invalid value: " ++ e.string)

/-- The `rorm::Error` surface the decoders return
(rorm-db's `error` module is not under `src/`). Modelled from the spec's
error taxonomy: `NotFound`/`TooMany` for the `one`/`optional` cardinality
contract, `DecodeError` for row decoding, plus propagated row errors. -/
inductive DbError where
  | notFound
  | tooMany
  | decodeError (msg : String)
  | rowError (e : RowError)
deriving DecidableEq, Repr

/-- `MaxStrDecoder` (src/src/fields/types/max_str.rs lines 196-217). -/
structure MaxStrDecoder where
  column : String
  index : Nat
deriving DecidableEq, Repr

/-- `MaxStrDecoder::by_name`: fetch the column by name, decode the primitive
string, then `MaxStr::new`, mapping a `MaxLenError` to
`Error::DecodeError("string is longer than MAX_LEN")`. -/
def MaxStrDecoder.by_name (MAX_LEN : Nat) (lenImpl : String → Nat)
    (dec : MaxStrDecoder) (row : Row) : Except DbError (MaxStr MAX_LEN) :=
  match row.getByName dec.column with
  | .error e => .error (.rowError e)
  | .ok v =>
    match decodeStringPrim v with
    | .error e => .error (.rowError e)
    | .ok s =>
      match MaxStr.new MAX_LEN lenImpl s with
      | .error _ => .error (.decodeError ("string is longer than " ++ toString MAX_LEN))
      | .ok m => .ok m

/-- `MaxStrDecoder::by_index`: same as `by_name` but fetching by position. -/
def MaxStrDecoder.by_index (MAX_LEN : Nat) (lenImpl : String → Nat)
    (dec : MaxStrDecoder) (row : Row) : Except DbError (MaxStr MAX_LEN) :=
  match row.getByIndex dec.index with
  | .error e => .error (.rowError e)
  | .ok v =>
    match decodeStringPrim v with
    | .error e => .error (.rowError e)
    | .ok s =>
      match MaxStr.new MAX_LEN lenImpl s with
      | .error _ => .error (.decodeError ("string is longer than " ++ toString MAX_LEN))
      | .ok m => .ok m

/-- The primitive `Option<String>` conversion used by `OptionMaxStrDecoder`
(`row.get::<Option<String>, _>`): a typed null decodes to `none`. -/
def decodeOptionStringPrim : DbValue → Except RowError (Option String)
  | .null => .ok none
  | .string s => .ok (some s)
  | _ => .error (.decode "type mismatch")

/-- `OptionMaxStrDecoder` (src/src/fields/types/max_str.rs lines 267-296). -/
structure OptionMaxStrDecoder where
  column : String
  index : Nat
deriving DecidableEq, Repr

/-- `OptionMaxStrDecoder::by_name` (lines 279-286): fetch an optional
string, wrap a present value through `MaxStr::new` and transpose. -/
def OptionMaxStrDecoder.by_name (MAX_LEN : Nat) (lenImpl : String → Nat)
    (dec : OptionMaxStrDecoder) (row : Row) : Except DbError (Option (MaxStr MAX_LEN)) :=
  match row.getByName dec.column with
  | .error e => .error (.rowError e)
  | .ok v =>
    match decodeOptionStringPrim v with
    | .error e => .error (.rowError e)
    | .ok none => .ok none
    | .ok (some s) =>
      match MaxStr.new MAX_LEN lenImpl s with
      | .error _ => .error (.decodeError ("string is longer than " ++ toString MAX_LEN))
      | .ok m => .ok (some m)

/-- `OptionMaxStrDecoder::by_index` (lines 288-295). -/
def OptionMaxStrDecoder.by_index (MAX_LEN : Nat) (lenImpl : String → Nat)
    (dec : OptionMaxStrDecoder) (row : Row) : Except DbError (Option (MaxStr MAX_LEN)) :=
  match row.getByIndex dec.index with
  | .error e => .error (.rowError e)
  | .ok v =>
    match decodeOptionStringPrim v with
    | .error e => .error (.rowError e)
    | .ok none => .ok none
    | .ok (some s) =>
      match MaxStr.new MAX_LEN lenImpl s with
      | .error _ => .error (.decodeError ("string is longer than " ++ toString MAX_LEN))
      | .ok m => .ok (some m)

/-! ## Query builder terminals and ranges (src/src/crud/query.rs) -/

/-- Modelled from the spec: `Database::query_one` (rorm-db's `database`
module, not under `src/`): "one(): exactly one row required; zero or >1
rows is NotFound/TooMany respectively". Its input is the list of rows
matching the query's condition. -/
def query_one (rows : List Row) : Except DbError Row :=
  match rows with
  | [] => .error .notFound
  | [row] => .ok row
  | _ => .error .tooMany

/-- Modelled from the spec: `Database::query_optional` (rorm-db's `database`
module, not under `src/`): "optional(): zero-or-one row; more than one is
TooMany". -/
def query_optional (rows : List Row) : Except DbError (Option Row) :=
  match rows with
  | [] => .ok none
  | [row] => .ok (some row)
  | _ => .error .tooMany

/-- `QueryBuilder::one` (src/src/crud/query.rs lines 239-258): delegates to
`query_one` (propagating its error with `?`) and decodes the row, mapping a
decode failure to `Error::DecodeError("Could not decode row")`. -/
def QueryBuilder.one {α : Type} (decode : Row → Except DbError α) (rows : List Row) :
    Except DbError α :=
  match query_one rows with
  | .error e => .error e
  | .ok row =>
    match decode row with
    | .ok value => .ok value
    | .error _ => .error (.decodeError "Could not decode row")

/-- `QueryBuilder::optional` (src/src/crud/query.rs lines 261-287):
delegates to `query_optional` (propagating its error with `?`) and decodes
the row if one was returned. -/
def QueryBuilder.optional {α : Type} (decode : Row → Except DbError α) (rows : List Row) :
    Except DbError (Option α) :=
  match query_optional rows with
  | .error e => .error e
  | .ok none => .ok none
  | .ok (some row) =>
    match decode row with
    | .ok value => .ok (some value)
    | .error _ => .error (.decodeError "Could not decode row")

/-- `Limit<u64>`: a query limit plus offset (src/src/crud/query.rs
lines 443-449, with `O = u64`). -/
structure Limit where
  limit : Nat
  offset : Nat
deriving DecidableEq, Repr

/-- Rust's `Range<u64>` (`a..b`): half-open, upper bound exclusive. -/
structure RustRange where
  start : Nat
  stop : Nat
deriving DecidableEq, Repr

/-- Rust's `RangeInclusive<u64>` (`a..=b`): upper bound inclusive. -/
structure RustRangeInclusive where
  start : Nat
  stop : Nat
deriving DecidableEq, Repr

/-- `FiniteRange<u64> for Range<u64>` (src/src/crud/query.rs
lines 401-409): `start()` is the lower bound. -/
def RustRange.start' (r : RustRange) : Nat := r.start

/-- `FiniteRange::end` for `Range<u64>`: the upper bound, already
exclusive. -/
def RustRange.end' (r : RustRange) : Nat := r.stop

/-- `FiniteRange::len` (default method, lines 394-399):
`self.end() - self.start()`. -/
def RustRange.len (r : RustRange) : Nat := r.end' - r.start'

/-- `FiniteRange<u64> for RangeInclusive<u64>` (lines 410-418): `start()`
is the lower bound. -/
def RustRangeInclusive.start' (r : RustRangeInclusive) : Nat := r.start

/-- `FiniteRange::end` for `RangeInclusive<u64>` (lines 415-417): the
inclusive upper bound converted to an exclusive one via `end + 1`. -/
def RustRangeInclusive.end' (r : RustRangeInclusive) : Nat := r.stop + 1

/-- `FiniteRange::len` for `RangeInclusive<u64>`:
`self.end() - self.start()`. -/
def RustRangeInclusive.len (r : RustRangeInclusive) : Nat := r.end' - r.start'

/-- `QueryBuilder::range` on a `Range<u64>` (src/src/crud/query.rs
lines 146-158): stores `Limit (limit: range.len(), offset: range.start())`. -/
def QueryBuilder.range (r : RustRange) : Limit :=
  { limit := r.len, offset := r.start' }

/-- `QueryBuilder::range` on a `RangeInclusive<u64>`. -/
def QueryBuilder.rangeInclusive (r : RustRangeInclusive) : Limit :=
  { limit := r.len, offset := r.start' }

/-! ## The SQL DELETE builder (src/rorm/rorm-sql/src/delete.rs) -/

/-- The SQL dialect selector `DBImpl` (rorm-sql's root module, not under
`src/`). Modelled from the spec: "one renderer per supported dialect (e.g.,
SQLite, Postgres, MySQL)"; src/rorm/rorm-sql/src/delete.rs matches on
`DBImpl::SQLite` and a wildcard. -/
inductive DBImpl where
  | sqlite
  | mysql
  | postgres
deriving DecidableEq, Repr

/-- Modelled from the spec: `BuildCondition::build` (rorm-sql's
`conditional` module, not under `src/`) renders a condition tree to SQL
text while appending every non-`Identifier` value leaf to the `lookup`
parameter list in depth-first order; `Identifier` leaves are emitted
unescaped, every other value becomes a `?` placeholder. -/
def Condition.build : Condition → List DbValue → String × List DbValue
  | .value (.ident name), lookup => (name, lookup)
  | .value v, lookup => ("?", lookup ++ [v])
  | .conjunction l, lookup =>
    let step := l.attach.foldl
      (fun (acc : List String × List DbValue) c =>
        let (s, lk) := c.1.build acc.2
        (acc.1 ++ [s], lk))
      ([], lookup)
    ("(" ++ String.intercalate " AND " step.1 ++ ")", step.2)
  | .disjunction l, lookup =>
    let step := l.attach.foldl
      (fun (acc : List String × List DbValue) c =>
        let (s, lk) := c.1.build acc.2
        (acc.1 ++ [s], lk))
      ([], lookup)
    ("(" ++ String.intercalate " OR " step.1 ++ ")", step.2)
  | .unaryCondition op arg, lookup =>
    let (s, lk) := arg.build lookup
    match op with
    | .isNull => ("(" ++ s ++ " IS NULL)", lk)
    | .isNotNull => ("(" ++ s ++ " IS NOT NULL)", lk)
  | .binaryCondition op a b, lookup =>
    let (sa, lka) := a.build lookup
    let (sb, lkb) := b.build lka
    let opText :=
      match op with
      | .equals => "="
      | .notEquals => "<>"
      | .greater => ">"
      | .greaterOrEquals => ">="
      | .less => "<"
      | .lessOrEquals => "<="
      | .like => "LIKE"
      | .notLike => "NOT LIKE"
      | .regexpOp => "REGEXP"
      | .notRegexpOp => "NOT REGEXP"
    ("(" ++ sa ++ " " ++ opText ++ " " ++ sb ++ ")", lkb)
  | .ternaryCondition op a b c, lookup =>
    let (sa, lka) := a.build lookup
    let (sb, lkb) := b.build lka
    let (sc, lkc) := c.build lkb
    match op with
    | .between => ("(" ++ sa ++ " BETWEEN " ++ sb ++ " AND " ++ sc ++ ")", lkc)
    | .notBetween => ("(" ++ sa ++ " NOT BETWEEN " ++ sb ++ " AND " ++ sc ++ ")", lkc)
termination_by c _ => sizeOf c
decreasing_by
  all_goals simp_wf
  all_goals first
    | (have h := List.sizeOf_lt_of_mem c.2; omega)
    | omega

/-- Outcome of `SQLDelete::build`. `built` is the `(String, Vec<Value>)` it
returns; `panicked` is the `todo!` panic; `errUnsupportedOperation` stands
for returning an `UnsupportedOperation` error value to the caller, which
the function's return type `(String, Vec<Value>)` cannot express and which
the translation below therefore never produces. -/
inductive SQLBuildOutcome where
  | built (sql : String) (params : List DbValue)
  | panicked (msg : String)
  | errUnsupportedOperation
deriving Repr

/-- `SQLDelete` (src/rorm/rorm-sql/src/delete.rs lines 9-15). -/
structure SQLDelete where
  dialect : DBImpl
  model : String
  lookup : List DbValue
  where_clause : Option Condition
  limit : Option Nat

/-- `SQLDelete::build` (src/rorm/rorm-sql/src/delete.rs lines 40-61):
renders `DELETE FROM model [WHERE cond ][LIMIT n];` for `DBImpl::SQLite`
and hits `todo!("Not implemented yet!")` for every other dialect. -/
def SQLDelete.build (d : SQLDelete) : SQLBuildOutcome :=
  match d.dialect with
  | .sqlite =>
    let s := "DELETE FROM " ++ d.model ++ " "
    let (s, lookup) :=
      match d.where_clause with
      | some cond =>
        let (condText, lookup) := cond.build d.lookup
        (s ++ "WHERE " ++ condText ++ " ", lookup)
      | none => (s, d.lookup)
    let s :=
      match d.limit with
      | some n => s ++ "LIMIT " ++ toString n
      | none => s
    .built (s ++ ";") lookup
  | _ => .panicked "Not implemented yet!"

/-! ## Patches (src/rorm/src/model.rs) -/

/-- The data of a `Patch` impl (src/rorm/src/model.rs lines 150-177):
`primaryName`/`primaryIndex` are `Self::Model::PRIMARY` (the primary key's
column name and field index) and `get` is `Patch::get`, returning the
patch's stored db value for a field index, or `None` when the patch does
not store that field. -/
structure PatchData where
  primaryName : String
  primaryIndex : Nat
  get : Nat → Option DbValue

/-- `Patch::as_condition` (src/rorm/src/model.rs lines 169-176): maps the
stored primary key value (if any) to a binary `Equals` between the primary
key's `Identifier` and that value. -/
def Patch.as_condition (p : PatchData) : Option Condition :=
  (p.get p.primaryIndex).map (fun value =>
    Condition.binaryCondition .equals
      (.value (.ident p.primaryName))
      (.value value))

/-! ## Foreign-key annotation merging (src/src/internal/field/foreign_model.rs) -/

/-- The `ForeignKey` annotation payload (hmr's `annotations` module, usage
in src/src/internal/field/foreign_model.rs lines 159-162). -/
structure ForeignKeyAnno where
  table_name : String
  column_name : String
deriving DecidableEq, Repr

/-- The flat `Annotations` record (hmr's `annotations` module, not under
`src/`; its shape follows the spec's section 3 list and the field accesses
in src/src/fields/types/max_str.rs and
src/src/internal/field/foreign_model.rs). -/
structure Annotations where
  auto_create_time : Bool
  auto_update_time : Bool
  auto_increment : Bool
  choices : Option (List String)
  default : Option DbValue
  index : Bool
  max_length : Option Int
  nullable : Bool
  primary_key : Bool
  unique : Bool
  foreign : Option ForeignKeyAnno
deriving DecidableEq, Repr

/-- `Annotations::empty()`: no annotation set. -/
def Annotations.empty : Annotations :=
  { auto_create_time := false
    auto_update_time := false
    auto_increment := false
    choices := none
    default := none
    index := false
    max_length := none
    nullable := false
    primary_key := false
    unique := false
    foreign := none }

/-- `ForeignModelTrait::IS_OPTION` for `ForeignModelByField<FF>`
(src/src/internal/field/foreign_model.rs line 118). -/
def ForeignModelByField.IS_OPTION : Bool := false

/-- `ForeignModelTrait::IS_OPTION` for `Option<ForeignModelByField<FF>>`
(src/src/internal/field/foreign_model.rs line 138). -/
def OptionForeignModelByField.IS_OPTION : Bool := true

/-- `foreign_annotations` (src/src/internal/field/foreign_model.rs
lines 148-165): starting from the field's explicit annotations, sets
`nullable` to `IS_OPTION`, copies the target field's `max_length` when the
field does not set one itself, and records the `foreign` key (the related
field's table and column names). -/
def foreign_annotations (IS_OPTION : Bool) (targetAnnos : Annotations)
    (relatedTable relatedColumn : String) (field : Annotations) : Annotations :=
  let annos := field
  let annos := { annos with nullable := IS_OPTION }
  let annos :=
    if annos.max_length.isNone then
      { annos with max_length := targetAnnos.max_length }
    else
      annos
  { annos with foreign := some { table_name := relatedTable, column_name := relatedColumn } }

/-! ## Theorems -/

/-- C1: for every query, `one()` returns `NotFound` when zero rows match
and `TooMany` when more than one row matches, and `optional()` returns
`TooMany` rather than silently returning the first row whenever more than
one row matches. -/
theorem one_optional_cardinality {α : Type} (decode : Row → Except DbError α)
    (rows : List Row) :
    (rows.length = 0 → QueryBuilder.one decode rows = .error .notFound) ∧
    (1 < rows.length → QueryBuilder.one decode rows = .error .tooMany) ∧
    (1 < rows.length → QueryBuilder.optional decode rows = .error .tooMany) := by
  refine ⟨?_, ?_, ?_⟩ <;> intro h <;>
    match rows with
    | [] => first | rfl | simp at h
    | [r] => simp at h
    | a :: b :: rest => first | rfl | simp at h

/-- Witness for C1 at concrete inputs: the empty row list and a two-row
list. -/
theorem one_optional_cardinality_witness :
    (QueryBuilder.one (fun r => Except.ok r) ([] : List Row) = .error .notFound) ∧
    (QueryBuilder.one (fun r => Except.ok r) [Row.mk [], Row.mk []] = .error .tooMany) ∧
    (QueryBuilder.optional (fun r => Except.ok r) [Row.mk [], Row.mk []] = .error .tooMany) :=
  ⟨(one_optional_cardinality (fun r => Except.ok r) []).1 rfl,
   (one_optional_cardinality (fun r => Except.ok r) [Row.mk [], Row.mk []]).2.1 (by decide),
   (one_optional_cardinality (fun r => Except.ok r) [Row.mk [], Row.mk []]).2.2 (by decide)⟩

/-- C4: for every finite range, `QueryBuilder::range` stores a limit equal
to the number of elements in the range and an offset equal to the range's
start; in particular `range(2..7)` yields limit 5, offset 2, and
`range(2..=6)` yields the same (the inclusive bound converting via
`end + 1`). The side conditions `a <= b` resp. `a <= b + 1` restrict to
the well-formed ranges on which Rust's `u64` subtraction cannot wrap. -/
theorem range_limit_offset :
    (∀ a b : Nat, a ≤ b →
      (QueryBuilder.range ⟨a, b⟩).limit = (Finset.Ico a b).card ∧
      (QueryBuilder.range ⟨a, b⟩).offset = a) ∧
    (∀ a b : Nat, a ≤ b + 1 →
      (QueryBuilder.rangeInclusive ⟨a, b⟩).limit = (Finset.Icc a b).card ∧
      (QueryBuilder.rangeInclusive ⟨a, b⟩).offset = a) ∧
    QueryBuilder.range ⟨2, 7⟩ = ⟨5, 2⟩ ∧
    QueryBuilder.rangeInclusive ⟨2, 6⟩ = ⟨5, 2⟩ := by
  refine ⟨?_, ?_, by decide, by decide⟩
  · intro a b _
    exact ⟨by simp [QueryBuilder.range, RustRange.len, RustRange.end',
        RustRange.start', Nat.card_Ico], rfl⟩
  · intro a b _
    exact ⟨by simp [QueryBuilder.rangeInclusive, RustRangeInclusive.len,
        RustRangeInclusive.end', RustRangeInclusive.start', Nat.card_Icc], rfl⟩

/-- Witness for C4 at the spec's concrete ranges `2..7` and `2..=6`. -/
theorem range_limit_offset_witness :
    ((2 : Nat) ≤ 7 ∧ (QueryBuilder.range ⟨2, 7⟩).limit = (Finset.Ico 2 7).card) ∧
    ((2 : Nat) ≤ 6 + 1 ∧ (QueryBuilder.rangeInclusive ⟨2, 6⟩).limit = (Finset.Icc 2 6).card) :=
  ⟨⟨by decide, (range_limit_offset.1 2 7 (by decide)).1⟩,
   ⟨by decide, (range_limit_offset.2.1 2 6 (by decide)).1⟩⟩

/-- C10: `Patch::as_condition` returns `None` iff the patch does not store
its model's primary key, and otherwise a binary `Equals` condition whose
first argument is the `Identifier` of the primary key's column name and
whose second argument is the stored primary key value. -/
theorem patch_as_condition_shape (p : PatchData) :
    (Patch.as_condition p = none ↔ p.get p.primaryIndex = none) ∧
    (∀ v, p.get p.primaryIndex = some v →
      Patch.as_condition p =
        some (Condition.binaryCondition .equals
          (.value (.ident p.primaryName)) (.value v))) := by
  constructor
  · unfold Patch.as_condition
    cases h : p.get p.primaryIndex <;> simp [h]
  · intro v h
    unfold Patch.as_condition
    rw [h]
    rfl

/-- Witness for C10 at a concrete patch storing primary key `id = 1`. -/
theorem patch_as_condition_shape_witness :
    (PatchData.mk "id" 0 (fun i => if i = 0 then some (.i64 1) else none)).get 0 =
      some (.i64 1) ∧
    Patch.as_condition (PatchData.mk "id" 0 (fun i => if i = 0 then some (.i64 1) else none)) =
      some (Condition.binaryCondition .equals (.value (.ident "id")) (.value (.i64 1))) :=
  ⟨rfl,
   (patch_as_condition_shape
      (PatchData.mk "id" 0 (fun i => if i = 0 then some (.i64 1) else none))).2
     (.i64 1) rfl⟩

/-- C8: for a foreign-key field the merged annotation set is the explicit
annotations extended by the type-implied ones: `nullable` is set iff the
field's Rust type is wrapped in `Option` (`IS_OPTION`), the target field's
`max_length` is copied exactly when the field sets none itself, the foreign
key reference is recorded, and all other explicit annotations are kept. -/
theorem foreign_annotations_merge (isOpt : Bool) (target : Annotations)
    (tbl col : String) (field : Annotations) :
    (foreign_annotations isOpt target tbl col field).nullable = isOpt ∧
    (field.max_length = none →
      (foreign_annotations isOpt target tbl col field).max_length = target.max_length) ∧
    (∀ v, field.max_length = some v →
      (foreign_annotations isOpt target tbl col field).max_length = some v) ∧
    (foreign_annotations isOpt target tbl col field).foreign =
      some ⟨tbl, col⟩ ∧
    ForeignModelByField.IS_OPTION = false ∧
    OptionForeignModelByField.IS_OPTION = true ∧
    (foreign_annotations isOpt target tbl col field).auto_create_time = field.auto_create_time ∧
    (foreign_annotations isOpt target tbl col field).auto_update_time = field.auto_update_time ∧
    (foreign_annotations isOpt target tbl col field).auto_increment = field.auto_increment ∧
    (foreign_annotations isOpt target tbl col field).choices = field.choices ∧
    (foreign_annotations isOpt target tbl col field).default = field.default ∧
    (foreign_annotations isOpt target tbl col field).index = field.index ∧
    (foreign_annotations isOpt target tbl col field).primary_key = field.primary_key ∧
    (foreign_annotations isOpt target tbl col field).unique = field.unique := by
  cases h : field.max_length <;>
    simp [foreign_annotations, h, ForeignModelByField.IS_OPTION,
      OptionForeignModelByField.IS_OPTION]

/-- Witness for C8 at concrete annotation sets: a field without an explicit
`max_length` inheriting the target's 255. -/
theorem foreign_annotations_merge_witness :
    Annotations.empty.max_length = none ∧
    (foreign_annotations true { Annotations.empty with max_length := some 255 }
        "user" "id" Annotations.empty).max_length = some 255 :=
  ⟨rfl,
   (foreign_annotations_merge true { Annotations.empty with max_length := some 255 }
      "user" "id" Annotations.empty).2.1 rfl⟩

/-- Counterexample to C2: the merged set `Default + PrimaryKey` (with the
mandatory not-null) appears in none of the spec's listed rules, yet the
linter rejects it ("Default and PrimaryKey are mutually exclusive"), so the
linter does not accept every combination not listed. -/
theorem check_annotations_rejects_unlisted :
    check_annotations
        ⟨false, false, false, false, true, false, false, true, false, true⟩ ≠ none ∧
    specRejects
        ⟨false, false, false, false, true, false, false, true, false, true⟩ = false := by
  decide

/-- C2 (amended): the linter rejects exactly the rule set of its match
table - the spec's listed rules, except that auto_increment requires a
primary key (a unique key does not suffice), plus: auto_increment mutually
exclusive with default; choices mutually exclusive with primary_key and
unique; default mutually exclusive with primary_key and unique; index
mutually exclusive with primary_key; and auto_update_time requires
nullable, a default or auto_create_time - and accepts every other
combination. -/
theorem check_annotations_code_rules :
    ∀ ct ut ai ch de ix ml pk un nn : Bool,
      check_annotations ⟨ct, ut, ai, ch, de, ix, ml, pk, un, nn⟩ = none ↔
        codeRejects ⟨ct, ut, ai, ch, de, ix, ml, pk, un, nn⟩ = false := by
  decide

/-- Counterexample to C7: building a DELETE for the Postgres dialect
panics with `todo!("Not implemented yet!")`; it does not (and, returning a
plain `(String, Vec<Value>)`, cannot) hand an `UnsupportedOperation` error
to the caller. -/
theorem delete_build_panics_not_error :
    SQLDelete.build ⟨.postgres, "user", [], none, none⟩ =
      .panicked "Not implemented yet!" ∧
    SQLDelete.build ⟨.postgres, "user", [], none, none⟩ ≠
      .errUnsupportedOperation := by
  exact ⟨rfl, by simp [SQLDelete.build]⟩

/-- C7 (amended): for every dialect/operator combination the DELETE builder
does not implement (every dialect but SQLite), it fails fast by panicking
with "Not implemented yet!" instead of emitting different (wrong) SQL. -/
theorem delete_build_fails_fast (d : SQLDelete) (h : d.dialect ≠ .sqlite) :
    SQLDelete.build d = .panicked "Not implemented yet!" ∧
    ∀ sql params, SQLDelete.build d ≠ .built sql params := by
  match hd : d.dialect with
  | .sqlite => exact absurd hd h
  | .mysql =>
    refine ⟨?_, fun sql params => ?_⟩ <;> simp [SQLDelete.build, hd]
  | .postgres =>
    refine ⟨?_, fun sql params => ?_⟩ <;> simp [SQLDelete.build, hd]

/-- Witness for C7's amended theorem at the MySQL dialect. -/
theorem delete_build_fails_fast_witness :
    (SQLDelete.mk .mysql "user" [] none none).dialect ≠ .sqlite ∧
    SQLDelete.build (SQLDelete.mk .mysql "user" [] none none) =
      .panicked "Not implemented yet!" :=
  ⟨by simp, (delete_build_fails_fast (SQLDelete.mk .mysql "user" [] none none) (by simp)).1⟩

/-- C3: `in_list` builds (via its `In` condition) a disjunction of one
per-value binary equality over the column reference, `not_in` the
corresponding conjunction; with the empty list the former renders to an
always-false predicate and the latter to an always-true one. -/
theorem in_list_not_in_expansion {α : Type} (column : String)
    (into_value : α → DbValue) (rhs : List α) :
    (FieldAccess.inList column into_value rhs).expand =
      .disjunction (rhs.map (fun r =>
        .binaryCondition .equals (.value (.ident column)) (.value (into_value r)))) ∧
    (FieldAccess.notIn column into_value rhs).expand =
      .conjunction (rhs.map (fun r =>
        .binaryCondition .notEquals (.value (.ident column)) (.value (into_value r)))) ∧
    (∀ env, Condition.eval env (FieldAccess.inList column into_value ([] : List α)).expand
      = false) ∧
    (∀ env, Condition.eval env (FieldAccess.notIn column into_value ([] : List α)).expand
      = true) := by
  refine ⟨?_, ?_, ?_, ?_⟩
  · simp [FieldAccess.inList, field_equals, InCond.expand, List.map_map]
  · simp [FieldAccess.notIn, field_equals, InCond.expand, List.map_map]
  · intro env
    simp [FieldAccess.inList, field_equals, InCond.expand, Condition.eval]
  · intro env
    simp [FieldAccess.notIn, field_equals, InCond.expand, Condition.eval]

/-- Helper: in a row whose column names are distinct, looking a name up
finds exactly the entry sitting at the position carrying that name. -/
theorem find_entry_of_nodup_get (entries : List (String × DbValue)) (i : Nat)
    (c : String) (v : DbValue)
    (hnodup : (entries.map Prod.fst).Nodup)
    (hget : entries.get? i = some (c, v)) :
    entries.find? (fun e => e.fst = c) = some (c, v) := by
  induction entries generalizing i with
  | nil => cases i <;> exact Option.noConfusion hget
  | cons hd tl ih =>
    rw [List.map_cons, List.nodup_cons] at hnodup
    cases i with
    | zero =>
      rw [List.get?] at hget
      injection hget with h
      subst h
      simp [List.find?]
    | succ n =>
      rw [List.get?] at hget
      have hmem : (c, v) ∈ tl := List.get?_mem hget
      have hne : hd.fst ≠ c := by
        intro h
        exact hnodup.1 (h ▸ List.mem_map_of_mem Prod.fst hmem)
      simp only [List.find?_cons, hne, decide_eq_true_eq, if_neg,
        decide_eq_false_iff_not]
      exact ih n hnodup.2 hget

/-- Helper: under the same distinctness assumption, by-name and by-index
row access return the same wire value. -/
theorem getByName_eq_getByIndex (row : Row) (column : String) (index : Nat)
    (v : DbValue)
    (hnodup : (row.entries.map Prod.fst).Nodup)
    (hget : row.entries.get? index = some (column, v)) :
    row.getByName column = .ok v ∧ row.getByIndex index = .ok v := by
  constructor
  · unfold Row.getByName
    rw [find_entry_of_nodup_get row.entries index column v hnodup hget]
  · unfold Row.getByIndex
    rw [hget]

/-- C5: for every decoder and every row, decoding by column name and by
positional index for the same column yields identical typed values for
every supported wire value variant (`DirectDecoder` with an arbitrary
primitive conversion, `MaxStrDecoder` and `OptionMaxStrDecoder`). -/
theorem decode_by_name_by_index_agree (row : Row) (column : String)
    (index : Nat) (v : DbValue)
    (hnodup : (row.entries.map Prod.fst).Nodup)
    (hget : row.entries.get? index = some (column, v)) :
    (∀ (α : Type) (prim : DbValue → Except RowError α),
      DirectDecoder.by_name ⟨column, index⟩ prim row =
        DirectDecoder.by_index ⟨column, index⟩ prim row) ∧
    (∀ (MAX_LEN : Nat) (lenImpl : String → Nat),
      MaxStrDecoder.by_name MAX_LEN lenImpl ⟨column, index⟩ row =
        MaxStrDecoder.by_index MAX_LEN lenImpl ⟨column, index⟩ row) ∧
    (∀ (MAX_LEN : Nat) (lenImpl : String → Nat),
      OptionMaxStrDecoder.by_name MAX_LEN lenImpl ⟨column, index⟩ row =
        OptionMaxStrDecoder.by_index MAX_LEN lenImpl ⟨column, index⟩ row) := by
  obtain ⟨hn, hi⟩ := getByName_eq_getByIndex row column index v hnodup hget
  refine ⟨?_, ?_, ?_⟩ <;> intros <;>
    simp [DirectDecoder.by_name, DirectDecoder.by_index,
      MaxStrDecoder.by_name, MaxStrDecoder.by_index,
      OptionMaxStrDecoder.by_name, OptionMaxStrDecoder.by_index, hn, hi]

/-- Witness for C5 at a concrete single-column row. -/
theorem decode_by_name_by_index_agree_witness :
    ((Row.mk [("name", .string "bob")]).entries.map Prod.fst).Nodup ∧
    (Row.mk [("name", .string "bob")]).entries.get? 0 = some ("name", .string "bob") ∧
    DirectDecoder.by_name ⟨"name", 0⟩ decodeStringPrim (Row.mk [("name", .string "bob")]) =
      DirectDecoder.by_index ⟨"name", 0⟩ decodeStringPrim (Row.mk [("name", .string "bob")]) :=
  ⟨by simp, rfl,
   (decode_by_name_by_index_agree (Row.mk [("name", .string "bob")]) "name" 0
      (.string "bob") (by simp) rfl).1 String decodeStringPrim⟩


/-- Helper: `MaxStr.with_impl` written as a single conditional. -/
theorem with_impl_eq (MAX_LEN : Nat) (lenImpl : String → Nat) (s : String) :
    MaxStr.with_impl MAX_LEN lenImpl s =
      if MAX_LEN < lenImpl s then
        .error { string := s, max := MAX_LEN, got := lenImpl s }
      else
        .ok { string := s } := rfl

/-- Helper: a successful `MaxStr.with_impl` keeps the string unchanged and
certifies the length bound. -/
theorem with_impl_ok_inv (MAX_LEN : Nat) (lenImpl : String → Nat)
    (s : String) (m : MaxStr MAX_LEN)
    (h : MaxStr.with_impl MAX_LEN lenImpl s = .ok m) :
    lenImpl m.string ≤ MAX_LEN ∧ m.string = s := by
  rw [with_impl_eq] at h
  by_cases hc : MAX_LEN < lenImpl s
  · rw [if_pos hc] at h
    exact Except.noConfusion h
  · rw [if_neg hc] at h
    injection h with h
    subst h
    exact ⟨Nat.le_of_not_lt hc, rfl⟩

/-- C6: a bounded-length string field whose stored value measures longer
than `MAX_LEN` fails to decode with a decode error; a successful decode
always returns the stored string unchanged, so the value is never
truncated to fit. -/
theorem maxstr_decode_no_truncation (MAX_LEN : Nat) (lenImpl : String → Nat)
    (dec : MaxStrDecoder) (row : Row) (s : String)
    (hs : row.getByName dec.column = .ok (.string s))
    (hlong : MAX_LEN < lenImpl s) :
    MaxStrDecoder.by_name MAX_LEN lenImpl dec row =
      .error (.decodeError ("string is longer than " ++ toString MAX_LEN)) ∧
    (∀ m, MaxStrDecoder.by_name MAX_LEN lenImpl dec row ≠ .ok m) ∧
    (∀ (row' : Row) (m : MaxStr MAX_LEN),
      MaxStrDecoder.by_name MAX_LEN lenImpl dec row' = .ok m →
      row'.getByName dec.column = .ok (.string m.string)) := by
  have herr : MaxStrDecoder.by_name MAX_LEN lenImpl dec row =
      .error (.decodeError ("string is longer than " ++ toString MAX_LEN)) := by
    unfold MaxStrDecoder.by_name
    rw [hs]
    show (match MaxStr.new MAX_LEN lenImpl s with
      | .error _ => Except.error (DbError.decodeError ("string is longer than " ++ toString MAX_LEN))
      | .ok m => Except.ok m) = _
    rw [MaxStr.new, with_impl_eq, if_pos hlong]
  refine ⟨herr, ?_, ?_⟩
  · intro m
    rw [herr]
    simp
  · intro row' m h
    unfold MaxStrDecoder.by_name at h
    cases hga : row'.getByName dec.column with
    | error e => rw [hga] at h; exact Except.noConfusion h
    | ok v =>
      rw [hga] at h
      dsimp only at h
      cases hdp : decodeStringPrim v with
      | error e => rw [hdp] at h; exact Except.noConfusion h
      | ok s' =>
        rw [hdp] at h
        dsimp only at h
        cases hn : MaxStr.new MAX_LEN lenImpl s' with
        | error e => rw [hn] at h; exact Except.noConfusion h
        | ok m' =>
          rw [hn] at h
          injection h with h
          obtain ⟨-, hms⟩ := with_impl_ok_inv MAX_LEN lenImpl s' m' hn
          have hv : v = .string s' := by
            cases v <;> simp [decodeStringPrim] at hdp
            rw [hdp]
          rw [hv, ← h, hms]

/-- Witness for C6: a `MaxLength(255)` field decoding a stored string of
length 300 (300 ASCII characters, measured with the string length). -/
theorem maxstr_decode_no_truncation_witness :
    (Row.mk [("content", .string (String.mk (List.replicate 300 'a')))]).getByName "content" =
      .ok (.string (String.mk (List.replicate 300 'a'))) ∧
    255 < (String.mk (List.replicate 300 'a')).length ∧
    MaxStrDecoder.by_name 255 String.length ⟨"content", 0⟩
        (Row.mk [("content", .string (String.mk (List.replicate 300 'a')))]) =
      .error (.decodeError ("string is longer than " ++ toString 255)) := by
  have hs : (Row.mk [("content", .string (String.mk (List.replicate 300 'a')))]).getByName
      "content" = .ok (.string (String.mk (List.replicate 300 'a'))) := rfl
  have hl : 255 < (String.mk (List.replicate 300 'a')).length := by
    show 255 < (List.replicate 300 'a').length
    rw [List.length_replicate]
    norm_num
  exact ⟨hs, hl,
    (maxstr_decode_no_truncation 255 String.length ⟨"content", 0⟩
      (Row.mk [("content", .string (String.mk (List.replicate 300 'a')))])
      (String.mk (List.replicate 300 'a')) hs hl).1⟩

/-- C9: every `MaxStr MAX_LEN` obtainable through the public constructors
and decoders (`with_impl`, `new`, the `Default` impl, `deserialize`,
`MaxStrDecoder`, `OptionMaxStrDecoder`) satisfies the invariant
`len(string) <= MAX_LEN`; the constructors return `MaxLenError` exactly
when the input string measures longer than `MAX_LEN`, and an accepted
string is stored unchanged. -/
theorem maxstr_invariant (MAX_LEN : Nat) (lenImpl : String → Nat) :
    (∀ s m, MaxStr.with_impl MAX_LEN lenImpl s = .ok m →
      lenImpl m.string ≤ MAX_LEN ∧ m.string = s) ∧
    (∀ s, (∃ e, MaxStr.with_impl MAX_LEN lenImpl s = .error e) ↔ MAX_LEN < lenImpl s) ∧
    (∀ s m, MaxStr.new MAX_LEN lenImpl s = .ok m → lenImpl m.string ≤ MAX_LEN) ∧
    (∀ m, MaxStr.defaultImpl MAX_LEN lenImpl = some m → lenImpl m.string ≤ MAX_LEN) ∧
    (∀ s m, MaxStr.deserialize MAX_LEN lenImpl s = .ok m → lenImpl m.string ≤ MAX_LEN) ∧
    (∀ dec row m, MaxStrDecoder.by_name MAX_LEN lenImpl dec row = .ok m →
      lenImpl m.string ≤ MAX_LEN) ∧
    (∀ dec row m, MaxStrDecoder.by_index MAX_LEN lenImpl dec row = .ok m →
      lenImpl m.string ≤ MAX_LEN) ∧
    (∀ dec row m, OptionMaxStrDecoder.by_name MAX_LEN lenImpl dec row = .ok (some m) →
      lenImpl m.string ≤ MAX_LEN) ∧
    (∀ dec row m, OptionMaxStrDecoder.by_index MAX_LEN lenImpl dec row = .ok (some m) →
      lenImpl m.string ≤ MAX_LEN) := by
  refine ⟨with_impl_ok_inv MAX_LEN lenImpl, ?_, ?_, ?_, ?_, ?_, ?_, ?_, ?_⟩
  · intro s
    rw [with_impl_eq]
    by_cases hc : MAX_LEN < lenImpl s
    · rw [if_pos hc]
      exact ⟨fun _ => hc, fun _ => ⟨_, rfl⟩⟩
    · rw [if_neg hc]
      constructor
      · rintro ⟨e, he⟩
        exact Except.noConfusion he
      · intro hcontra
        exact absurd hcontra hc
  · intro s m h
    exact (with_impl_ok_inv MAX_LEN lenImpl s m h).1
  · intro m h
    unfold MaxStr.defaultImpl at h
    cases hn : MaxStr.new MAX_LEN lenImpl "" with
    | ok m' =>
      rw [hn] at h
      injection h with h
      exact h ▸ (with_impl_ok_inv MAX_LEN lenImpl "" m' hn).1
    | error e => rw [hn] at h; exact Option.noConfusion h
  · intro s m h
    unfold MaxStr.deserialize at h
    cases hn : MaxStr.new MAX_LEN lenImpl s with
    | ok m' =>
      rw [hn] at h
      injection h with h
      exact h ▸ (with_impl_ok_inv MAX_LEN lenImpl s m' hn).1
    | error e => rw [hn] at h; exact Except.noConfusion h
  · intro dec row m h
    unfold MaxStrDecoder.by_name at h
    cases hga : row.getByName dec.column with
    | error e => rw [hga] at h; exact Except.noConfusion h
    | ok v =>
      rw [hga] at h
      dsimp only at h
      cases hdp : decodeStringPrim v with
      | error e => rw [hdp] at h; exact Except.noConfusion h
      | ok s =>
        rw [hdp] at h
        dsimp only at h
        cases hn : MaxStr.new MAX_LEN lenImpl s with
        | error e => rw [hn] at h; exact Except.noConfusion h
        | ok m' =>
          rw [hn] at h
          injection h with h
          exact h ▸ (with_impl_ok_inv MAX_LEN lenImpl s m' hn).1
  · intro dec row m h
    unfold MaxStrDecoder.by_index at h
    cases hga : row.getByIndex dec.index with
    | error e => rw [hga] at h; exact Except.noConfusion h
    | ok v =>
      rw [hga] at h
      dsimp only at h
      cases hdp : decodeStringPrim v with
      | error e => rw [hdp] at h; exact Except.noConfusion h
      | ok s =>
        rw [hdp] at h
        dsimp only at h
        cases hn : MaxStr.new MAX_LEN lenImpl s with
        | error e => rw [hn] at h; exact Except.noConfusion h
        | ok m' =>
          rw [hn] at h
          injection h with h
          exact h ▸ (with_impl_ok_inv MAX_LEN lenImpl s m' hn).1
  · intro dec row m h
    unfold OptionMaxStrDecoder.by_name at h
    cases hga : row.getByName dec.column with
    | error e => rw [hga] at h; exact Except.noConfusion h
    | ok v =>
      rw [hga] at h
      dsimp only at h
      cases hdp : decodeOptionStringPrim v with
      | error e => rw [hdp] at h; exact Except.noConfusion h
      | ok o =>
        rw [hdp] at h
        cases o with
        | none => simp at h
        | some s =>
          dsimp only at h
          cases hn : MaxStr.new MAX_LEN lenImpl s with
          | error e => rw [hn] at h; exact Except.noConfusion h
          | ok m' =>
            rw [hn] at h
            injection h with h
            injection h with h
            exact h ▸ (with_impl_ok_inv MAX_LEN lenImpl s m' hn).1
  · intro dec row m h
    unfold OptionMaxStrDecoder.by_index at h
    cases hga : row.getByIndex dec.index with
    | error e => rw [hga] at h; exact Except.noConfusion h
    | ok v =>
      rw [hga] at h
      dsimp only at h
      cases hdp : decodeOptionStringPrim v with
      | error e => rw [hdp] at h; exact Except.noConfusion h
      | ok o =>
        rw [hdp] at h
        cases o with
        | none => simp at h
        | some s =>
          dsimp only at h
          cases hn : MaxStr.new MAX_LEN lenImpl s with
          | error e => rw [hn] at h; exact Except.noConfusion h
          | ok m' =>
            rw [hn] at h
            injection h with h
            injection h with h
            exact h ▸ (with_impl_ok_inv MAX_LEN lenImpl s m' hn).1

/-- Witness for C9 at `MAX_LEN = 3`: the accepted string "ab" and the
rejected string "abcd". -/
theorem maxstr_invariant_witness :
    MaxStr.with_impl 3 String.length "ab" = .ok (MaxStr.mk "ab") ∧
    String.length ((MaxStr.mk "ab" : MaxStr 3)).string ≤ 3 ∧
    ((∃ e, MaxStr.with_impl 3 String.length "abcd" = .error e) ↔
      3 < String.length "abcd") := by
  refine ⟨rfl, ?_, (maxstr_invariant 3 String.length).2.1 "abcd"⟩
  exact ((maxstr_invariant 3 String.length).1 "ab" (MaxStr.mk "ab") rfl).1

end DormVerify
